import Mathlib

/-!
Verification of the criteria-driven RAG evaluation pipeline of the
`top-200` Streamlit application, as a shallow embedding in Lean 4.

The embedding covers:

* the prompt construction of `rag` (`src/pages/4_AI_Analysis.py`, lines
  12-58; the sibling copy in `src/pages/ai_analysis.py` builds the same
  string, differing only in retrieved column names);
* the orchestration loop `run_analysis` (`src/pages/4_AI_Analysis.py`,
  lines 295-410), with the external effects of each cell (the `rag`
  call, the JSON parse, the database insert) supplied by an oracle so
  that every theorem quantifies over all possible effect outcomes;
* the review-page scoring computations
  (`src/pages/5_Review_Analysis.py`, lines 287-400);
* the "latest run per criteria" selection query
  (`src/pages/5_Review_Analysis.py`, lines 307-337);
* the media-scan store operations
  (`src/pages/2_Media_Scan_Management.py`, lines 40-89).

Numeric weights (Python floats / SQL numbers) are modelled as `Rat`;
result timestamps (`output:timestamp::timestamp_ntz`) as `Int`.
-/

namespace Top200

/-! ## Context Assembler: the `rag` prompt construction

Source (`src/pages/4_AI_Analysis.py`, lines 18-54):

    query += f"""{query}
        <media_scan>
        {result}
        </media_scan>
        """
    ...
    for i, r in enumerate(results):
        context_str += f"Context document {i+1}: {r['final_chunk_ocr']} \n" + "\n"
    ...
    prompt = f"""{query}
        <context>
        {prompt_context}
        </context>
        """

(the literal f-strings indent the inner lines with four spaces).

The media-scan XML text and the retrieved chunk texts are inputs of the
embedding; the string assembly is translated verbatim.
-/

/-- The `query += f"""{query} ... """` statement: the new value of
`query` is the old value concatenated with an f-string that itself
begins with the old value, so the criterion prompt text is duplicated. -/
def mediaScanAugmented (query msXml : String) : String :=
  query ++ (query ++ "\n    <media_scan>\n    " ++ msXml ++ "\n    </media_scan>\n    ")

/-- `context_str` accumulation over the retrieved chunks, with 1-based
ordinal labels. -/
def contextStr (chunks : List String) : String :=
  (go chunks 1)
where
  go : List String → Nat → String
    | [], _ => ""
    | c :: rest, i =>
        "Context document " ++ toString i ++ ": " ++ c ++ " \n\n" ++ go rest (i + 1)

/-- The final `prompt` string handed to `complete`, as the code builds
it from the criterion prompt `query`, the media-scan XML `msXml` and the
retrieved `chunks`. -/
def ragPrompt (query msXml : String) (chunks : List String) : String :=
  mediaScanAugmented query msXml ++
    "\n    <context>\n    " ++ contextStr chunks ++ "\n    </context>\n    "

/-- The composition the specification describes: criterion prompt text
once, then the media-scan block, then the context block.  Written from
the spec's words for comparison with `ragPrompt`. -/
def specRagPrompt (query msXml : String) (chunks : List String) : String :=
  query ++ "\n    <media_scan>\n    " ++ msXml ++ "\n    </media_scan>\n    " ++
    "\n    <context>\n    " ++ contextStr chunks ++ "\n    </context>\n    "

/-! ## Analysis Run Orchestrator: `run_analysis`

Source (`src/pages/4_AI_Analysis.py`, lines 295-410).  The loop walks
the criteria (outer) and companies (inner), and for each cell:

    try:
        rag_output = rag(criteria['prompt'], company)
        rag_output = json.loads(rag_output)
        try:
            ... extract result / explanation / supporting_evidence ...
            session.sql(insert_sql, [...]).collect()
            results.append({..., 'status': 'success', ...})
        except Exception as db_error:
            st.warning(...)
            results.append({..., 'status': 'success_no_save', ...})
    except Exception as e:
        st.error(...)

External effects are supplied by a `World` oracle: the outcome of the
`rag` call, of the JSON decode (Python's `json` library applied to the
returned text, including the extraction of the three expected fields —
a missing field makes the inner block raise before the insert and the
fallback append itself re-raises, so the cell ends in the outer
handler exactly as a decode failure does), and of the insert.  Streamlit
calls (`st.error`, `st.warning`, progress updates) are modelled as
appends to lists of surfaced messages. -/

/-- One active criterion as produced by `get_active_criteria`
(`src/pages/4_AI_Analysis.py`, lines 87-116). -/
structure Criteria where
  id : String
  version : String
  prompt : String
  question : String
  weight : Rat
  display_name : String
deriving DecidableEq, Repr

/-- The three fields `run_analysis` reads from the decoded model
output: `result`, `explanation`, `supporting_evidence` (the last one
re-serialised by `json.dumps`, kept here as the resulting string). -/
structure RagJson where
  result : String
  explanation : String
  supporting_evidence : String
deriving DecidableEq, Repr

/-- Outcome of the external `rag` call for one cell. -/
inductive RagCall where
  | raises (msg : String)
  | returns (raw : String)
deriving DecidableEq, Repr

/-- Outcome of the `cortex_output` insert for one cell. -/
inductive DbCall where
  | ok
  | raises (msg : String)
deriving DecidableEq, Repr

/-- Oracle for the external effects of a run: the `rag` call keyed by
cell, the JSON decode of the returned text, and the database insert
keyed by cell. -/
structure World where
  rag : Criteria → String → RagCall
  parse : String → Except String RagJson
  db : Criteria → String → DbCall

/-- One entry of the in-memory `results` list
(`src/pages/4_AI_Analysis.py`, lines 372-383 and 387-398). -/
structure CellResult where
  criteria : String
  company : String
  result : String
  status : String
  run_id : String
  criteria_id : String
  question : String
  weight : Rat
  justification : String
  supporting_evidence : String
deriving DecidableEq, Repr

/-- One row inserted into `cortex_output`
(`src/pages/4_AI_Analysis.py`, lines 358-370). -/
structure InsertedRow where
  criteria_id : String
  criteria_version : String
  criteria_prompt : String
  question : String
  run_id : String
  result : String
  justification : String
  evidence : String
  data_source : String
deriving DecidableEq, Repr

/-- The mutable state of `run_analysis`: the attempted cells (the
progress/status updates at the top of the loop body), the in-memory
`results` list, the rows written to `cortex_output`, and the messages
surfaced through `st.error` and `st.warning`. -/
structure RunState where
  attempted : List (Criteria × String)
  results : List CellResult
  inserted : List InsertedRow
  errors : List String
  warnings : List String
deriving DecidableEq, Repr

def initState : RunState := ⟨[], [], [], [], []⟩

/-- The `results.append` payload shared by the `success` and
`success_no_save` branches. -/
def mkCellResult (run_id : String) (c : Criteria) (company : String)
    (j : RagJson) (status : String) : CellResult :=
  { criteria := c.display_name
    company := company
    result := j.result
    status := status
    run_id := run_id
    criteria_id := c.id
    question := c.question
    weight := c.weight
    justification := j.explanation
    supporting_evidence := j.supporting_evidence }

/-- The row handed to the `INSERT INTO cortex_output` statement. -/
def mkInsertedRow (run_id : String) (c : Criteria) (company : String)
    (j : RagJson) : InsertedRow :=
  { criteria_id := c.id
    criteria_version := c.version
    criteria_prompt := c.prompt
    question := c.question
    run_id := run_id
    result := j.result
    justification := j.explanation
    evidence := j.supporting_evidence
    data_source := company }

/-- The `st.error` message of the outer exception handler. -/
def cellErrText (c : Criteria) (company msg : String) : String :=
  "Error analyzing " ++ c.display_name ++ " for " ++ company ++ ": " ++ msg

/-- The `st.warning` message of the inner (database) exception handler. -/
def cellWarnText (c : Criteria) (company msg : String) : String :=
  "Analysis completed for " ++ c.display_name ++ " - " ++ company ++
    " but failed to save to database: " ++ msg

/-- The body of the nested loop for one `(criteria, company)` cell. -/
def processCell (w : World) (run_id : String) (c : Criteria) (company : String)
    (s : RunState) : RunState :=
  let s := { s with attempted := s.attempted ++ [(c, company)] }
  match w.rag c company with
  | .raises msg =>
      { s with errors := s.errors ++ [cellErrText c company msg] }
  | .returns raw =>
      match w.parse raw with
      | .error msg =>
          { s with errors := s.errors ++ [cellErrText c company msg] }
      | .ok j =>
          match w.db c company with
          | .ok =>
              { s with
                  inserted := s.inserted ++ [mkInsertedRow run_id c company j]
                  results := s.results ++ [mkCellResult run_id c company j "success"] }
          | .raises msg =>
              { s with
                  warnings := s.warnings ++ [cellWarnText c company msg]
                  results := s.results ++ [mkCellResult run_id c company j "success_no_save"] }

/-- The nested `for criteria in selected_criteria: for company in
companies:` loop of `run_analysis`. -/
def run_analysis (w : World) (run_id : String)
    (selected_criteria : List Criteria) (companies : List String) : RunState :=
  selected_criteria.foldl
    (fun s c => companies.foldl (fun s company => processCell w run_id c company s) s)
    initState

/-- The post-run summary of lines 408-410: the count of `success`
entries and the length of the in-memory `results` list. -/
def runSummary (s : RunState) : Nat × Nat :=
  ((s.results.filter (fun r => r.status == "success")).length, s.results.length)

/-! ### Per-cell outcome functions and the loop characterisation -/

/-- The cell matrix in iteration order: criteria outer, companies
inner, both in input order. -/
def cellMatrix : List Criteria → List String → List (Criteria × String)
  | [], _ => []
  | c :: cs, companies => companies.map (fun k => (c, k)) ++ cellMatrix cs companies

/-- Entries one cell contributes to the in-memory `results` list. -/
def cellResults (w : World) (run_id : String) (c : Criteria) (company : String) :
    List CellResult :=
  match w.rag c company with
  | .raises _ => []
  | .returns raw =>
      match w.parse raw with
      | .error _ => []
      | .ok j =>
          match w.db c company with
          | .ok => [mkCellResult run_id c company j "success"]
          | .raises _ => [mkCellResult run_id c company j "success_no_save"]

/-- Rows one cell contributes to `cortex_output`. -/
def cellInserted (w : World) (run_id : String) (c : Criteria) (company : String) :
    List InsertedRow :=
  match w.rag c company with
  | .raises _ => []
  | .returns raw =>
      match w.parse raw with
      | .error _ => []
      | .ok j =>
          match w.db c company with
          | .ok => [mkInsertedRow run_id c company j]
          | .raises _ => []

/-- Messages one cell surfaces through `st.error`. -/
def cellErrors (w : World) (c : Criteria) (company : String) : List String :=
  match w.rag c company with
  | .raises msg => [cellErrText c company msg]
  | .returns raw =>
      match w.parse raw with
      | .error msg => [cellErrText c company msg]
      | .ok _ => []

/-- Messages one cell surfaces through `st.warning`. -/
def cellWarnings (w : World) (c : Criteria) (company : String) : List String :=
  match w.rag c company with
  | .raises _ => []
  | .returns raw =>
      match w.parse raw with
      | .error _ => []
      | .ok _ =>
          match w.db c company with
          | .ok => []
          | .raises msg => [cellWarnText c company msg]

/-- Whether the cell ends in the outer exception handler. -/
def cellFails (w : World) (c : Criteria) (company : String) : Bool :=
  match w.rag c company with
  | .raises _ => true
  | .returns raw =>
      match w.parse raw with
      | .error _ => true
      | .ok _ => false

/-- Whether the evaluation of the cell (rag call and JSON decode)
succeeds, regardless of the insert. -/
def cellEvalOk (w : World) (c : Criteria) (company : String) : Bool :=
  match w.rag c company with
  | .raises _ => false
  | .returns raw =>
      match w.parse raw with
      | .error _ => false
      | .ok _ => true

/-- The exception message a failing cell carries (the `rag` exception
or the JSON decode exception); the empty string on a cell that does
not fail. -/
def cellFailMsg (w : World) (c : Criteria) (company : String) : String :=
  match w.rag c company with
  | .raises msg => msg
  | .returns raw =>
      match w.parse raw with
      | .error msg => msg
      | .ok _ => ""

/-- Loop over an explicit cell list; the nested loop of `run_analysis`
is this fold over `cellMatrix`. -/
def runCells (w : World) (run_id : String) :
    List (Criteria × String) → RunState → RunState
  | [], s => s
  | ck :: rest, s => runCells w run_id rest (processCell w run_id ck.1 ck.2 s)

/-- Results contributed by a list of cells. -/
def cellsResults (w : World) (run_id : String) :
    List (Criteria × String) → List CellResult
  | [] => []
  | ck :: rest => cellResults w run_id ck.1 ck.2 ++ cellsResults w run_id rest

/-- Inserted rows contributed by a list of cells. -/
def cellsInserted (w : World) (run_id : String) :
    List (Criteria × String) → List InsertedRow
  | [] => []
  | ck :: rest => cellInserted w run_id ck.1 ck.2 ++ cellsInserted w run_id rest

/-- Error messages contributed by a list of cells. -/
def cellsErrors (w : World) : List (Criteria × String) → List String
  | [] => []
  | ck :: rest => cellErrors w ck.1 ck.2 ++ cellsErrors w rest

/-- Warning messages contributed by a list of cells. -/
def cellsWarnings (w : World) : List (Criteria × String) → List String
  | [] => []
  | ck :: rest => cellWarnings w ck.1 ck.2 ++ cellsWarnings w rest

/-! ## Review page: scoring (`src/pages/5_Review_Analysis.py`)

The per-company query (lines 287-337) returns one row per result with

    CASE WHEN UPPER(TRIM(co.result)) = 'YES' THEN ic.weight ELSE 0 END as score

where `ic.weight` comes from a LEFT JOIN against `input_criteria`, so
it is NULL when no active criterion row matches `(criteria_id,
criteria_version)`.  The metrics (lines 394-400) are

    total_score = df['Score'].sum()
    max_possible = df['Weight'].sum()
    percentage = (total_score / max_possible * 100) if max_possible > 0 else 0

pandas sums skip NULL/NaN entries, modelled here by summing over the
present values of an `Option Rat` column. -/

/-- One row of the per-company review result set: the stored `result`
text and the joined criterion weight (`none` when the LEFT JOIN found
no matching criterion). -/
structure ReviewRow where
  result : String
  weight : Option Rat
deriving DecidableEq, Repr

/-- SQL UPPER on one character: an ASCII lowercase letter is mapped to
its uppercase counterpart. -/
def upChar (c : Char) : Char :=
  if c.isLower then Char.ofNat (c.toNat - 32) else c

/-- SQL UPPER. -/
def sqlUpper (s : String) : String := ⟨s.data.map upChar⟩

/-- SQL TRIM: strips leading and trailing spaces. -/
def sqlTrim (s : String) : String :=
  ⟨((s.data.dropWhile (fun c => c == ' ')).reverse.dropWhile (fun c => c == ' ')).reverse⟩

/-- The `UPPER(TRIM(result)) = 'YES'` comparison deciding whether a
row contributes its weight. -/
def isYes (s : String) : Bool := sqlUpper (sqlTrim s) == "YES"

/-- The SQL `CASE WHEN UPPER(TRIM(co.result)) = 'YES' THEN ic.weight
ELSE 0 END` score expression of one row. -/
def rowScore (r : ReviewRow) : Option Rat :=
  if isYes r.result then r.weight else some 0

/-- Sum of a nullable column, skipping the absent entries, as pandas
`Series.sum` does. -/
def sumOpt (l : List (Option Rat)) : Rat :=
  (l.filterMap id).sum

/-- `total_score = df['Score'].sum()` (line 395). -/
def totalScore (rows : List ReviewRow) : Rat :=
  sumOpt (rows.map rowScore)

/-- `max_possible = df['Weight'].sum()` (line 398). -/
def weightTotal (rows : List ReviewRow) : Rat :=
  sumOpt (rows.map (fun r => r.weight))

/-- The displayed Score metric:
`(total_score / max_possible * 100) if max_possible > 0 else 0`
(line 399). -/
def scorePercent (rows : List ReviewRow) : Rat :=
  if 0 < weightTotal rows then totalScore rows / weightTotal rows * 100 else 0

/-- The percentage the specification describes: total score divided by
the sum of the weights of all active criteria, times 100.  Written
from the spec's words for comparison with `scorePercent`. -/
def specScorePercent (activeWeights : List Rat) (rows : List ReviewRow) : Rat :=
  totalScore rows / activeWeights.sum * 100

/-- Injection of a result set whose weights are all present, as the
claims about scoring presuppose. -/
def mkRows (l : List (String × Rat)) : List ReviewRow :=
  l.map (fun p => { result := p.1, weight := some p.2 })

/-! ## Review page: the latest-run-per-criteria query

Source (`src/pages/5_Review_Analysis.py`, lines 307-337):

    WITH latest_runs AS (
        SELECT criteria_id, MAX(output:timestamp::timestamp_ntz) as latest_timestamp
        FROM cortex_output WHERE data_source = ... GROUP BY criteria_id)
    SELECT ... FROM cortex_output co ...
    INNER JOIN latest_runs lr ON co.criteria_id = lr.criteria_id
        AND co.output:timestamp::timestamp_ntz = lr.latest_timestamp
    WHERE co.data_source = ...

The rows below are the `cortex_output` rows of the selected company;
the embedded `output:timestamp` value is modelled as an `Int`. -/

/-- One stored result row of the selected company, with its embedded
`output:timestamp` value. -/
structure OutputRow where
  criteria_id : String
  run_id : String
  ts : Int
  result : String
deriving DecidableEq, Repr

/-- The `latest_runs` CTE entry for one `criteria_id`: the maximal
embedded timestamp among the rows of that criterion. -/
def maxTsFor (rows : List OutputRow) (cid : String) : Option Int :=
  ((rows.filter (fun r => r.criteria_id == cid)).map (fun r => r.ts)).max?

/-- The INNER JOIN against `latest_runs`: keeps exactly the rows whose
embedded timestamp equals the maximum for their `criteria_id`. -/
def latestPerCriteria (rows : List OutputRow) : List OutputRow :=
  rows.filter (fun r => maxTsFor rows r.criteria_id == some r.ts)

/-! ## Media scan store (`src/pages/2_Media_Scan_Management.py`)

The table is a multiset of `(COMPANY_NAME, TOPIC_OF_DISQUALIFICATION)`
rows, modelled as a list.  `save_media_scan` (lines 40-77) runs a
MERGE on the non-edit path and a plain UPDATE on the edit path;
`delete_media_scan` (lines 79-89) runs a DELETE. -/

/-- The MERGE of the non-edit `save_media_scan` path: matched rows get
their topic replaced, otherwise the row is inserted. -/
def mergeMediaScan (table : List (String × String)) (name topic : String) :
    List (String × String) :=
  if table.any (fun r => r.1 == name) then
    table.map (fun r => if r.1 == name then (r.1, topic) else r)
  else
    table ++ [(name, topic)]

/-- The UPDATE of the edit path: every row whose name equals the
original name has both its name and topic replaced. -/
def updateMediaScan (table : List (String × String))
    (newName newTopic origName : String) : List (String × String) :=
  table.map (fun r => if r.1 == origName then (newName, newTopic) else r)

/-- The DELETE of `delete_media_scan`. -/
def deleteMediaScan (table : List (String × String)) (name : String) :
    List (String × String) :=
  table.filter (fun r => ¬ r.1 == name)

/-- The invariant of the `DisqualificationRecord` store: at most one
row per exact company name. -/
def atMostOnePerName (table : List (String × String)) : Prop :=
  (table.map Prod.fst).Nodup

instance (table : List (String × String)) : Decidable (atMostOnePerName table) := by
  unfold atMostOnePerName
  infer_instance

/-! ## Sample inputs used by the witnesses -/

/-- A sample criterion. -/
def sampleCriteria : Criteria :=
  { id := "A.1"
    version := "v1"
    prompt := "Does the report mention emissions targets?"
    question := "Emissions targets?"
    weight := 2
    display_name := "A.1 (v1)" }

/-- A sample decoded model output. -/
def sampleJson : RagJson :=
  { result := "YES", explanation := "Explicit target found", supporting_evidence := "chunk 1" }

/-- A world in which every cell evaluates and saves successfully. -/
def okWorld : World :=
  { rag := fun _ _ => .returns "raw"
    parse := fun _ => .ok sampleJson
    db := fun _ _ => .ok }

/-- A world in which the model output never decodes as JSON. -/
def badParseWorld : World :=
  { rag := fun _ _ => .returns "I cannot help with that"
    parse := fun _ => .error "Expecting value"
    db := fun _ _ => .ok }

/-- A world in which every evaluation succeeds but every database
insert raises. -/
def dbFailWorld : World :=
  { rag := fun _ _ => .returns "raw"
    parse := fun _ => .ok sampleJson
    db := fun _ _ => .raises "insert failed" }

/-- Two stored rows of the same criterion from different runs sharing
the same embedded timestamp. -/
def tieRowA : OutputRow := { criteria_id := "A.1", run_id := "run1", ts := 5, result := "YES" }

/-- The second of the two tying rows. -/
def tieRowB : OutputRow := { criteria_id := "A.1", run_id := "run2", ts := 5, result := "NO" }

end Top200

namespace Top200

theorem processCell_eq (w : World) (run_id : String) (c : Criteria)
    (company : String) (s : RunState) :
    processCell w run_id c company s =
      { attempted := s.attempted ++ [(c, company)]
        results := s.results ++ cellResults w run_id c company
        inserted := s.inserted ++ cellInserted w run_id c company
        errors := s.errors ++ cellErrors w c company
        warnings := s.warnings ++ cellWarnings w c company } := by
  unfold processCell cellResults cellInserted cellErrors cellWarnings
  cases hr : w.rag c company with
  | raises msg => simp
  | returns raw =>
    cases hp : w.parse raw with
    | error msg => simp [hp]
    | ok j =>
      cases hd : w.db c company with
      | ok => simp [hp, hd]
      | raises msg => simp [hp, hd]

theorem runCells_eq (w : World) (run_id : String)
    (l : List (Criteria × String)) (s : RunState) :
    runCells w run_id l s =
      { attempted := s.attempted ++ l
        results := s.results ++ cellsResults w run_id l
        inserted := s.inserted ++ cellsInserted w run_id l
        errors := s.errors ++ cellsErrors w l
        warnings := s.warnings ++ cellsWarnings w l } := by
  induction l generalizing s with
  | nil => simp [runCells, cellsResults, cellsInserted, cellsErrors, cellsWarnings]
  | cons ck rest ih =>
    simp only [runCells, cellsResults, cellsInserted, cellsErrors, cellsWarnings]
    rw [ih, processCell_eq]
    simp

theorem runCells_append (w : World) (run_id : String)
    (a b : List (Criteria × String)) (s : RunState) :
    runCells w run_id (a ++ b) s = runCells w run_id b (runCells w run_id a s) := by
  induction a generalizing s with
  | nil => simp [runCells]
  | cons ck rest ih => simp [runCells, ih]

theorem run_analysis_eq_runCells (w : World) (run_id : String)
    (C : List Criteria) (K : List String) :
    run_analysis w run_id C K = runCells w run_id (cellMatrix C K) initState := by
  unfold run_analysis
  have inner : ∀ (c : Criteria) (K : List String) (s : RunState),
      K.foldl (fun s company => processCell w run_id c company s) s =
        runCells w run_id (K.map (fun k => (c, k))) s := by
    intro c K
    induction K with
    | nil => intro s; simp [runCells]
    | cons k rest ih => intro s; simp [runCells, ih]
  have outer : ∀ (C : List Criteria) (s : RunState),
      C.foldl (fun s c => K.foldl (fun s company => processCell w run_id c company s) s) s =
        runCells w run_id (cellMatrix C K) s := by
    intro C
    induction C with
    | nil => intro s; simp [runCells, cellMatrix]
    | cons c rest ih =>
      intro s
      simp only [List.foldl_cons, cellMatrix, runCells_append]
      rw [inner, ih]
  exact outer C initState

/-- On every input the assembled prompt starts with the criterion
prompt text written twice, back to back. -/
theorem ragPrompt_duplicates (query msXml : String) (chunks : List String) :
    ragPrompt query msXml chunks =
      query ++ query ++ "\n    <media_scan>\n    " ++ msXml ++ "\n    </media_scan>\n    " ++
        "\n    <context>\n    " ++ contextStr chunks ++ "\n    </context>\n    " := by
  simp [ragPrompt, mediaScanAugmented, String.append_assoc]

theorem cellResults_errors_length (w : World) (run_id : String)
    (c : Criteria) (company : String) :
    (cellResults w run_id c company).length + (cellErrors w c company).length = 1 := by
  unfold cellResults cellErrors
  cases hr : w.rag c company with
  | raises msg => simp
  | returns raw =>
    cases hp : w.parse raw with
    | error msg => simp [hp]
    | ok j =>
      cases hd : w.db c company with
      | ok => simp [hp, hd]
      | raises msg => simp [hp, hd]

theorem cellsResults_errors_length (w : World) (run_id : String)
    (l : List (Criteria × String)) :
    (cellsResults w run_id l).length + (cellsErrors w l).length = l.length := by
  induction l with
  | nil => simp [cellsResults, cellsErrors]
  | cons ck rest ih =>
    simp only [cellsResults, cellsErrors, List.length_append, List.length_cons]
    have h1 := cellResults_errors_length w run_id ck.1 ck.2
    omega

theorem cellMatrix_length (C : List Criteria) (K : List String) :
    (cellMatrix C K).length = C.length * K.length := by
  induction C with
  | nil => simp [cellMatrix]
  | cons c rest ih =>
    simp [cellMatrix, ih, Nat.succ_mul, Nat.add_comm]

theorem cellErrors_eq (w : World) (c : Criteria) (company : String) :
    cellErrors w c company =
      if cellFails w c company then [cellErrText c company (cellFailMsg w c company)]
      else [] := by
  unfold cellErrors cellFails cellFailMsg
  cases hr : w.rag c company with
  | raises msg => simp
  | returns raw =>
    cases hp : w.parse raw with
    | error msg => simp [hp]
    | ok j => simp [hp]

theorem cellsErrors_eq (w : World) (l : List (Criteria × String)) :
    cellsErrors w l =
      (l.filter (fun ck => cellFails w ck.1 ck.2)).map
        (fun ck => cellErrText ck.1 ck.2 (cellFailMsg w ck.1 ck.2)) := by
  induction l with
  | nil => simp [cellsErrors]
  | cons ck rest ih =>
    simp only [cellsErrors, List.filter_cons]
    by_cases h : cellFails w ck.1 ck.2
    · simp [h, cellErrors_eq, ih]
    · simp [h, cellErrors_eq, ih]

theorem cellResults_length_evalOk (w : World) (run_id : String)
    (c : Criteria) (company : String) :
    (cellResults w run_id c company).length =
      if cellEvalOk w c company then 1 else 0 := by
  unfold cellResults cellEvalOk
  cases hr : w.rag c company with
  | raises msg => simp
  | returns raw =>
    cases hp : w.parse raw with
    | error msg => simp [hp]
    | ok j =>
      cases hd : w.db c company with
      | ok => simp [hp, hd]
      | raises msg => simp [hp, hd]

theorem cellsResults_length (w : World) (run_id : String)
    (l : List (Criteria × String)) :
    (cellsResults w run_id l).length =
      (l.filter (fun ck => cellEvalOk w ck.1 ck.2)).length := by
  induction l with
  | nil => simp [cellsResults]
  | cons ck rest ih =>
    simp only [cellsResults, List.length_append, List.filter_cons]
    by_cases h : cellEvalOk w ck.1 ck.2
    · simp [h, cellResults_length_evalOk, ih, Nat.add_comm]
    · simp [h, cellResults_length_evalOk, ih]

theorem cellResults_statuses (w : World) (run_id : String)
    (c : Criteria) (company : String) :
    (cellResults w run_id c company).all
      (fun r => r.status == "success" || r.status == "success_no_save") = true := by
  unfold cellResults
  cases hr : w.rag c company with
  | raises msg => simp
  | returns raw =>
    cases hp : w.parse raw with
    | error msg => simp [hp]
    | ok j =>
      cases hd : w.db c company with
      | ok => simp [hp, hd, mkCellResult]
      | raises msg => simp [hp, hd, mkCellResult]

theorem cellsResults_statuses (w : World) (run_id : String)
    (l : List (Criteria × String)) :
    (cellsResults w run_id l).all
      (fun r => r.status == "success" || r.status == "success_no_save") = true := by
  induction l with
  | nil => simp [cellsResults]
  | cons ck rest ih =>
    simp only [cellsResults, List.all_append, Bool.and_eq_true]
    exact ⟨cellResults_statuses w run_id ck.1 ck.2, ih⟩

/-- Claim C1: the claim states that the assembled prompt is the
criterion prompt text, then the media-scan block, then the context
block, with the criterion prompt text appearing exactly once.
Evaluating the embedded prompt construction at a concrete input shows
the criterion prompt text duplicated at the front of the prompt, so
the assembled string differs from the composition the claim
describes. -/
theorem claim_C1_rag_prompt_duplicated :
    ragPrompt "QUERY" "MS" ["CHUNK"] =
      "QUERYQUERY\n    <media_scan>\n    MS\n    </media_scan>\n    " ++
        "\n    <context>\n    Context document 1: CHUNK \n\n\n    </context>\n    " ∧
    ragPrompt "QUERY" "MS" ["CHUNK"] ≠ specRagPrompt "QUERY" "MS" ["CHUNK"] := by
  constructor
  · rfl
  · decide

/-- Claim C2: for non-empty criteria and company lists, one run
attempts exactly the criteria-times-companies matrix of cells, with
the criteria as the outer loop and the companies as the inner loop in
input order, and each attempted cell is classified exactly once as a
success (a `results` entry) or a failure (a surfaced error). -/
theorem claim_C2_matrix_iteration (w : World) (run_id : String)
    (C : List Criteria) (K : List String) (hC : C ≠ []) (hK : K ≠ []) :
    (run_analysis w run_id C K).attempted = cellMatrix C K ∧
    (run_analysis w run_id C K).attempted.length = C.length * K.length ∧
    (run_analysis w run_id C K).results.length +
        (run_analysis w run_id C K).errors.length = C.length * K.length := by
  rw [run_analysis_eq_runCells, runCells_eq]
  refine ⟨by simp [initState], by simp [initState, cellMatrix_length], ?_⟩
  simp only [initState, List.nil_append]
  rw [cellsResults_errors_length, cellMatrix_length]

theorem claim_C2_matrix_iteration_witness :
    (run_analysis okWorld "run1" [sampleCriteria] ["Acme Co"]).attempted =
        cellMatrix [sampleCriteria] ["Acme Co"] ∧
    (run_analysis okWorld "run1" [sampleCriteria] ["Acme Co"]).attempted.length =
        [sampleCriteria].length * ["Acme Co"].length ∧
    (run_analysis okWorld "run1" [sampleCriteria] ["Acme Co"]).results.length +
        (run_analysis okWorld "run1" [sampleCriteria] ["Acme Co"]).errors.length =
        [sampleCriteria].length * ["Acme Co"].length :=
  claim_C2_matrix_iteration okWorld "run1" [sampleCriteria] ["Acme Co"]
    (by simp) (by simp)

/-- Claim C3: whatever the outcome of each cell (any rag-call or parse
exception included), every cell of the matrix is attempted — a failing
cell never aborts the loop — and each failing cell surfaces exactly
its error message to the caller. -/
theorem claim_C3_failure_isolation (w : World) (run_id : String)
    (C : List Criteria) (K : List String) :
    (run_analysis w run_id C K).attempted = cellMatrix C K ∧
    (run_analysis w run_id C K).errors =
      ((cellMatrix C K).filter (fun ck => cellFails w ck.1 ck.2)).map
        (fun ck => cellErrText ck.1 ck.2 (cellFailMsg w ck.1 ck.2)) := by
  rw [run_analysis_eq_runCells, runCells_eq]
  exact ⟨by simp [initState], by simp [initState, cellsErrors_eq]⟩

/-- Claim C4: when the model completion text does not decode as the
expected JSON object, the cell ends in the exception handler with the
decode error surfaced, and the state is otherwise unchanged: no
`cortex_output` row is inserted and no `results` entry is constructed
for that cell, so malformed output is never coerced into a default
answer. -/
theorem claim_C4_malformed_output (w : World) (run_id : String) (c : Criteria)
    (company : String) (s : RunState) (raw msg : String)
    (hrag : w.rag c company = .returns raw)
    (hparse : w.parse raw = .error msg) :
    processCell w run_id c company s =
      { s with
          attempted := s.attempted ++ [(c, company)]
          errors := s.errors ++ [cellErrText c company msg] } := by
  rw [processCell_eq]
  simp [cellResults, cellInserted, cellErrors, cellWarnings, hrag, hparse]

theorem claim_C4_malformed_output_witness :
    processCell badParseWorld "run1" sampleCriteria "Acme Co" initState =
      { initState with
          attempted := initState.attempted ++ [(sampleCriteria, "Acme Co")]
          errors := initState.errors ++
            [cellErrText sampleCriteria "Acme Co" "Expecting value"] } :=
  claim_C4_malformed_output badParseWorld "run1" sampleCriteria "Acme Co" initState
    "I cannot help with that" "Expecting value" rfl rfl

/-- Claim C9: when the cell evaluation succeeds (rag call, decode and
field extraction) but the insert into `cortex_output` raises, the
computed result is still appended to the in-memory `results` list with
the status `success_no_save` — distinct from plain success and from
total cell failure — carrying the computed `result` value; nothing is
inserted durably and no error is recorded, only a warning. -/
theorem claim_C9_surfaced_on_persistence_failure (w : World) (run_id : String)
    (c : Criteria) (company : String) (s : RunState) (raw msg : String) (j : RagJson)
    (hrag : w.rag c company = .returns raw)
    (hparse : w.parse raw = .ok j)
    (hdb : w.db c company = .raises msg) :
    (processCell w run_id c company s =
      { s with
          attempted := s.attempted ++ [(c, company)]
          results := s.results ++ [mkCellResult run_id c company j "success_no_save"]
          warnings := s.warnings ++ [cellWarnText c company msg] }) ∧
    (mkCellResult run_id c company j "success_no_save").result = j.result ∧
    (mkCellResult run_id c company j "success_no_save").status = "success_no_save" ∧
    ("success_no_save" : String) ≠ "success" := by
  refine ⟨?_, rfl, rfl, by decide⟩
  rw [processCell_eq]
  simp [cellResults, cellInserted, cellErrors, cellWarnings, hrag, hparse, hdb]

theorem claim_C9_surfaced_on_persistence_failure_witness :
    (processCell dbFailWorld "run1" sampleCriteria "Acme Co" initState =
      { initState with
          attempted := initState.attempted ++ [(sampleCriteria, "Acme Co")]
          results := initState.results ++
            [mkCellResult "run1" sampleCriteria "Acme Co" sampleJson "success_no_save"]
          warnings := initState.warnings ++
            [cellWarnText sampleCriteria "Acme Co" "insert failed"] }) ∧
    (mkCellResult "run1" sampleCriteria "Acme Co" sampleJson "success_no_save").result =
        sampleJson.result ∧
    (mkCellResult "run1" sampleCriteria "Acme Co" sampleJson "success_no_save").status =
        "success_no_save" ∧
    ("success_no_save" : String) ≠ "success" :=
  claim_C9_surfaced_on_persistence_failure dbFailWorld "run1" sampleCriteria "Acme Co"
    initState "raw" "insert failed" sampleJson rfl rfl rfl

/-- Claim C10: a failing cell appends nothing to the in-memory
`results` list: the length of `results` — the total count shown by the
post-run summary — equals the number of cells whose evaluation
succeeded (with or without a database save), and every entry of
`results`, hence everything the displays and the CSV export iterate
over, carries one of the two success statuses, never an error
status. -/
theorem claim_C10_failed_cells_not_listed (w : World) (run_id : String)
    (C : List Criteria) (K : List String) :
    (run_analysis w run_id C K).results.length =
      ((cellMatrix C K).filter (fun ck => cellEvalOk w ck.1 ck.2)).length ∧
    (runSummary (run_analysis w run_id C K)).2 =
      (run_analysis w run_id C K).results.length ∧
    (run_analysis w run_id C K).results.all
      (fun r => r.status == "success" || r.status == "success_no_save") = true := by
  rw [run_analysis_eq_runCells, runCells_eq]
  refine ⟨?_, rfl, ?_⟩
  · simp [initState, cellsResults_length]
  · simp only [initState, List.nil_append]
    exact cellsResults_statuses w run_id (cellMatrix C K)

theorem rowScore_some (r : String) (w : Rat) :
    rowScore { result := r, weight := some w } =
      some (if isYes r then w else 0) := by
  unfold rowScore
  split <;> rfl

theorem totalScore_mkRows (l : List (String × Rat)) :
    totalScore (mkRows l) =
      (l.map (fun p => if isYes p.1 then p.2 else 0)).sum := by
  induction l with
  | nil => rfl
  | cons p rest ih =>
    simp only [totalScore, mkRows, sumOpt] at ih ⊢
    simp only [List.map_cons, rowScore_some, List.filterMap_cons, id,
      List.sum_cons]
    rw [ih]

theorem weightTotal_mkRows (l : List (String × Rat)) :
    weightTotal (mkRows l) = (l.map (fun p => p.2)).sum := by
  induction l with
  | nil => rfl
  | cons p rest ih =>
    simp only [weightTotal, mkRows, sumOpt] at ih ⊢
    simp only [List.map_cons, List.filterMap_cons, id, List.sum_cons]
    rw [ih]

/-- Claim C5: refutation of the claim as stated.  The claim says the
total score equals the sum of the weights exactly when every result is
the token YES; with the single row `("NO", 0)` — a weight of zero is
accepted by the criteria form, whose minimum is 0.0 — the total score
equals the weight sum although the result is not YES. -/
theorem claim_C5_counterexample :
    totalScore (mkRows [("NO", 0)]) = weightTotal (mkRows [("NO", 0)]) ∧
    isYes "NO" = false := by
  have hno : isYes "NO" = false := by decide
  constructor
  · simp [totalScore, weightTotal, mkRows, sumOpt, rowScore, hno]
  · exact hno

/-- Claim C5 (amended): the total score is the sum over rows of the
weight when the uppercased, trimmed result equals YES and 0 otherwise;
with non-negative weights the score never exceeds the weight sum and
reaches it whenever every result is YES; with strictly positive
weights, reaching the weight sum moreover forces every result to be
YES (a zero-weight row may break that converse). -/
theorem claim_C5_amended (l : List (String × Rat)) (hw : ∀ p ∈ l, 0 ≤ p.2) :
    totalScore (mkRows l) =
      (l.map (fun p => if isYes p.1 = true then p.2 else 0)).sum ∧
    totalScore (mkRows l) ≤ weightTotal (mkRows l) ∧
    ((∀ p ∈ l, isYes p.1 = true) →
      totalScore (mkRows l) = weightTotal (mkRows l)) ∧
    ((∀ p ∈ l, 0 < p.2) →
      (totalScore (mkRows l) = weightTotal (mkRows l) ↔
        ∀ p ∈ l, isYes p.1 = true)) := by
  refine ⟨totalScore_mkRows l, ?_, ?_, ?_⟩
  · rw [totalScore_mkRows, weightTotal_mkRows]
    apply List.sum_le_sum
    intro p hp
    split
    · exact le_refl _
    · exact hw p hp
  · intro hyes
    rw [totalScore_mkRows, weightTotal_mkRows]
    congr 1
    apply List.map_congr_left
    intro p hp
    simp [hyes p hp]
  · intro hpos
    constructor
    · intro heq
      by_contra hnot
      push_neg at hnot
      obtain ⟨p, hp, hpno⟩ := hnot
      have hlt : totalScore (mkRows l) < weightTotal (mkRows l) := by
        rw [totalScore_mkRows, weightTotal_mkRows]
        apply List.sum_lt_sum
        · intro q hq
          split
          · exact le_refl _
          · exact hw q hq
        · refine ⟨p, hp, ?_⟩
          simp only [hpno, if_false]
          exact hpos p hp
      exact absurd heq (ne_of_lt hlt)
    · intro hyes
      rw [totalScore_mkRows, weightTotal_mkRows]
      congr 1
      apply List.map_congr_left
      intro p hp
      simp [hyes p hp]

theorem claim_C5_amended_witness :
    totalScore (mkRows [("YES", 2), ("no", 1)]) =
      ([("YES", (2 : Rat)), ("no", 1)].map
        (fun p => if isYes p.1 = true then p.2 else 0)).sum ∧
    totalScore (mkRows [("YES", 2), ("no", 1)]) ≤
      weightTotal (mkRows [("YES", 2), ("no", 1)]) ∧
    ((∀ p ∈ [("YES", (2 : Rat)), ("no", 1)], isYes p.1 = true) →
      totalScore (mkRows [("YES", 2), ("no", 1)]) =
        weightTotal (mkRows [("YES", 2), ("no", 1)])) ∧
    ((∀ p ∈ [("YES", (2 : Rat)), ("no", 1)], 0 < p.2) →
      (totalScore (mkRows [("YES", 2), ("no", 1)]) =
          weightTotal (mkRows [("YES", 2), ("no", 1)]) ↔
        ∀ p ∈ [("YES", (2 : Rat)), ("no", 1)], isYes p.1 = true)) :=
  claim_C5_amended [("YES", 2), ("no", 1)]
    (by
      intro p hp
      simp only [List.mem_cons, List.mem_singleton, List.not_mem_nil, or_false] at hp
      rcases hp with h | h <;> subst h <;> norm_num)

/-- Claim C6: refutation of the claim as stated.  The displayed Score
metric divides by the weight sum of the displayed result rows, not by
the weight sum of all active criteria: with active criteria of weights
2 and 3 and a result set holding a single YES row of weight 2, the
code displays 100 while the claimed formula gives 40. -/
theorem claim_C6_counterexample :
    scorePercent (mkRows [("YES", 2)]) = 100 ∧
    specScorePercent [2, 3] (mkRows [("YES", 2)]) = 40 ∧
    scorePercent (mkRows [("YES", 2)]) ≠ specScorePercent [2, 3] (mkRows [("YES", 2)]) := by
  have hyes : isYes "YES" = true := by decide
  have h1 : scorePercent (mkRows [("YES", 2)]) = 100 := by
    simp [scorePercent, totalScore, weightTotal, mkRows, sumOpt, rowScore, hyes]
  have h2 : specScorePercent [2, 3] (mkRows [("YES", 2)]) = 40 := by
    simp [specScorePercent, totalScore, mkRows, sumOpt, rowScore, hyes]
    norm_num
  refine ⟨h1, h2, ?_⟩
  rw [h1, h2]
  norm_num

/-- Claim C6 (amended): the displayed score percentage equals the
total score divided by the sum of the weights of the displayed result
rows, times 100; it coincides with the spec formula — total score over
the sum of all active criteria weights — exactly when the displayed
rows carry the full active weight sum. -/
theorem claim_C6_amended (rows : List ReviewRow) (activeWeights : List Rat)
    (h : 0 < weightTotal rows) :
    scorePercent rows = totalScore rows / weightTotal rows * 100 ∧
    (weightTotal rows = activeWeights.sum →
      scorePercent rows = specScorePercent activeWeights rows) := by
  constructor
  · simp [scorePercent, h]
  · intro he
    unfold specScorePercent
    rw [← he]
    simp [scorePercent, h]

theorem claim_C6_amended_witness :
    (0 : Rat) < weightTotal (mkRows [("YES", 2)]) ∧
    (scorePercent (mkRows [("YES", 2)]) =
        totalScore (mkRows [("YES", 2)]) / weightTotal (mkRows [("YES", 2)]) * 100 ∧
      (weightTotal (mkRows [("YES", 2)]) = ([(2 : Rat)]).sum →
        scorePercent (mkRows [("YES", 2)]) =
          specScorePercent [(2 : Rat)] (mkRows [("YES", 2)]))) :=
  ⟨by simp [weightTotal, mkRows, sumOpt],
    claim_C6_amended (mkRows [("YES", 2)]) [(2 : Rat)]
      (by simp [weightTotal, mkRows, sumOpt])⟩

/-- Claim C7: refutation of the claim as stated.  With two rows of the
same criterion from different runs sharing the same maximal embedded
timestamp, the latest-per-criteria query returns both rows: no
tie-break is applied, so more than one row per criteria id is
selected. -/
theorem claim_C7_counterexample :
    latestPerCriteria [tieRowA, tieRowB] = [tieRowA, tieRowB] ∧
    ((latestPerCriteria [tieRowA, tieRowB]).filter
        (fun r => r.criteria_id == "A.1")).length = 2 := by
  constructor
  · decide
  · decide

/-- Claim C7 (amended): the latest-per-criteria query keeps exactly
the rows whose embedded result timestamp equals the maximal timestamp
of their criteria id; when a criteria id attains its maximum on a
unique row, exactly one row is returned for it, and when several rows
tie at the maximum all of them are returned. -/
theorem claim_C7_amended (rows : List OutputRow) (r : OutputRow) (cid : String)
    (huniq : (rows.filter
        (fun x => x.criteria_id == cid && maxTsFor rows cid == some x.ts)).length = 1) :
    (r ∈ latestPerCriteria rows ↔
      r ∈ rows ∧ maxTsFor rows r.criteria_id = some r.ts) ∧
    ((latestPerCriteria rows).filter (fun x => x.criteria_id == cid)).length = 1 := by
  constructor
  · simp [latestPerCriteria, List.mem_filter]
  · rw [← huniq]
    unfold latestPerCriteria
    rw [List.filter_filter]
    congr 1
    apply List.filter_congr
    intro x hx
    by_cases hc : x.criteria_id = cid
    · simp [hc]
    · have hf : (x.criteria_id == cid) = false := by
        simp [hc]
      simp [hf]

theorem claim_C7_amended_witness :
    ((tieRowA ∈ latestPerCriteria [tieRowA] ↔
      tieRowA ∈ [tieRowA] ∧
        maxTsFor [tieRowA] tieRowA.criteria_id = some tieRowA.ts) ∧
    ((latestPerCriteria [tieRowA]).filter
        (fun x => x.criteria_id == "A.1")).length = 1) :=
  claim_C7_amended [tieRowA] tieRowA "A.1" (by decide)

/-- Claim C8: refutation of the claim as stated.  The claim says every
write operation preserves the at-most-one-row-per-name invariant; the
edit path is a plain UPDATE, so renaming a record onto a name another
row already bears produces two rows with that name. -/
theorem claim_C8_counterexample :
    atMostOnePerName [("A", "t1"), ("B", "t2")] ∧
    ¬ atMostOnePerName (updateMediaScan [("A", "t1"), ("B", "t2")] "B" "t3" "A") := by
  constructor
  · decide
  · decide

/-- Claim C8 (amended): on a store satisfying the invariant, the
non-edit save (MERGE) and the delete always preserve at most one row
per exact company name, and the edit (UPDATE) preserves it when the
new name equals the original or no existing row bears the new name;
renaming onto an existing other name is the one violating case. -/
theorem claim_C8_amended (table : List (String × String))
    (hinv : atMostOnePerName table) (name topic newName newTopic origName : String)
    (hedit : newName = origName ∨ newName ∉ table.map Prod.fst) :
    atMostOnePerName (mergeMediaScan table name topic) ∧
    atMostOnePerName (deleteMediaScan table name) ∧
    atMostOnePerName (updateMediaScan table newName newTopic origName) := by
  unfold atMostOnePerName at hinv ⊢
  refine ⟨?_, ?_, ?_⟩
  · unfold mergeMediaScan
    by_cases hmem : table.any (fun r => r.1 == name)
    · rw [if_pos hmem]
      have hmap : (table.map (fun r => if r.1 == name then (r.1, topic) else r)).map
          Prod.fst = table.map Prod.fst := by
        rw [List.map_map]
        apply List.map_congr_left
        intro r _
        by_cases hr : r.1 = name <;> simp [hr]
      rw [hmap]
      exact hinv
    · rw [if_neg hmem]
      rw [List.map_append]
      rw [List.nodup_append]
      refine ⟨hinv, by simp, ?_⟩
      intro a ha hb
      simp only [List.map_cons, List.map_nil, List.mem_singleton] at hb
      subst hb
      simp only [List.any_eq_true, not_exists, not_and] at hmem
      obtain ⟨r, hr, hfst⟩ := List.mem_map.mp ha
      exact absurd (by simpa [hfst]) (hmem r hr)
  · unfold deleteMediaScan
    exact hinv.sublist ((List.filter_sublist table).map Prod.fst)
  · unfold updateMediaScan
    have hmap : (table.map (fun r => if r.1 == origName then (newName, newTopic) else r)).map
        Prod.fst = (table.map Prod.fst).map
          (fun n => if n = origName then newName else n) := by
      rw [List.map_map, List.map_map]
      apply List.map_congr_left
      intro r _
      by_cases hr : r.1 = origName <;> simp [hr]
    rw [hmap]
    rcases hedit with heq | hnotin
    · rw [heq]
      have hid : (table.map Prod.fst).map (fun n => if n = origName then origName else n) =
          table.map Prod.fst := by
        conv_rhs => rw [← List.map_id (table.map Prod.fst)]
        apply List.map_congr_left
        intro n _
        by_cases hn : n = origName <;> simp [hn]
      rw [hid]
      exact hinv
    · apply List.Nodup.map_on ?_ hinv
      intro x hx y hy hxy
      by_cases hxo : x = origName <;> by_cases hyo : y = origName
      · rw [hxo, hyo]
      · exfalso
        rw [if_pos hxo, if_neg hyo] at hxy
        exact hnotin (hxy ▸ hy)
      · exfalso
        rw [if_neg hxo, if_pos hyo] at hxy
        exact hnotin (hxy ▸ hx)
      · rwa [if_neg hxo, if_neg hyo] at hxy

theorem claim_C8_amended_witness :
    atMostOnePerName [("A", "t1")] ∧
    (("A" : String) = "A" ∨ ("A" : String) ∉ ([("A", "t1")].map Prod.fst)) ∧
    (atMostOnePerName (mergeMediaScan [("A", "t1")] "B" "t2") ∧
      atMostOnePerName (deleteMediaScan [("A", "t1")] "B") ∧
      atMostOnePerName (updateMediaScan [("A", "t1")] "A" "t9" "A")) :=
  ⟨by decide, Or.inl rfl,
    claim_C8_amended [("A", "t1")] (by decide) "B" "t2" "A" "t9" "A" (Or.inl rfl)⟩

end Top200
